import Mathlib

/-!
Verification of the rate-limiting engine (`ratelimit` package) against its
natural-language specification.

Shallow embedding conventions:
* timestamps (`datetime`) and durations (`timedelta`) are rationals (`ℚ`),
  measured in seconds; `a - b` is `(a - b).total_seconds()`;
* Python `None`-able fields become `Option`;
* Python `int` becomes `ℤ` (so that invalid negative inputs stay representable);
* the two persistence backends (`store`, `ranking`) become extra state fields
  (`stored*`) that a save copies the in-memory record into;
* the source snapshot contains two drifted engine variants (one names the
  identity level "authority", the other "user"); the embedding uses a single
  abstract `IgnoreLevel.identity` for that level.
-/

/- Batteries marks the `Rat` arithmetic operations `@[irreducible]`, which
blocks `decide` on concrete timestamps; the development evaluates them. -/
attribute [local semireducible] Rat.sub Rat.add Rat.mul Rat.inv Rat.ofScientific

namespace RatelimitSpec

/-- Source `ratelimit.config.DEFAULT_BLOCK_TIME` (300 seconds). -/
def DEFAULT_BLOCK_TIME : ℚ := 300

/-- Python group filter values: `affected_group` is `None`, one string, or a
list of strings (`ratelimit/rule.py`). -/
inductive AffectedGroup where
  | all : AffectedGroup
  | one (g : String) : AffectedGroup
  | many (gs : List String) : AffectedGroup
deriving DecidableEq, Repr

/-- Source `ratelimit.rule.LimitRule` dataclass fields, before `__post_init__`
validation (which the dataclass runs at construction; here it is the separate
`postInitError`). -/
structure LimitRule where
  hits : Option ℤ := none
  batch_time : Option ℚ := none
  delay : Option ℚ := none
  block_time : ℚ := DEFAULT_BLOCK_TIME
  increase_rank : Bool := true
  message : Option String := none
  reason : Option String := none
  affected_group : AffectedGroup := .all
deriving DecidableEq, Repr

/-- Source `LimitRule.__post_init__`: the first failing validation check's message,
or `none` when construction succeeds.  Checks are in source order.  The
type-level check that `affected_group` is a string or list is vacuous here
(the embedding is typed). -/
def LimitRule.postInitError (r : LimitRule) : Option String :=
  if r.hits = none ∧ r.batch_time = none ∧ r.delay = none then
    some "If delay is None then hits and batch_time must not be None"
  else if r.hits ≠ none ∧ r.batch_time = none then
    some "If hits is None then batch_time must not be None"
  else if (r.hits ≠ none ∨ r.batch_time ≠ none) ∧ r.delay ≠ none then
    some "If delay is not None then hits and batch_time must be None"
  else if ∃ d, r.delay = some d ∧ d ≤ 0 then
    some "delay must be greater than zero"
  else if ∃ h, r.hits = some h ∧ h ≤ 0 then
    some "hits must be greater than zero"
  else if ∃ b, r.batch_time = some b ∧ b ≤ 0 then
    some "batch_time must be greater than zero"
  else if r.affected_group = .many [] then
    some "affected_group cannot be an empty list"
  else
    none

/-- Construction of a `LimitRule` succeeds exactly when `__post_init__`
raises no `ValueError`. -/
def LimitRule.constructionOk (r : LimitRule) : Bool :=
  r.postInitError = none

/-- Source `ratelimit.endpoint.Endpoint` (pydantic model): the persisted counter
record, used both for the global (per-endpoint) and the local
(per-identity-per-endpoint) scope. -/
structure Endpoint where
  path : String := ""
  method : String := ""
  hits : List ℚ := []
  ignore_times : Option ℤ := none
  ignore_until : Option ℚ := none
  blocked_at : Option ℚ := none
  blocked_by_rule : Option LimitRule := none
deriving DecidableEq, Repr

/-- The computed field `Endpoint.blocked`:
`blocked_by_rule is not None and blocked_at + blocked_by_rule.block_time > now`.
The source reads `blocked_at` only when `blocked_by_rule` is set; the engine
always sets the two fields together, so a record with the rule set but no
`blocked_at` (which would raise a `TypeError` in Python) is mapped to
not-blocked. -/
def Endpoint.isBlocked (e : Endpoint) (now : ℚ) : Bool :=
  match e.blocked_by_rule, e.blocked_at with
  | some r, some t => decide (t + r.block_time > now)
  | _, _ => false

/-- Source `ratelimit.user.BaseUser`: caller identity.  `unique_id` is opaque;
pydantic validates `rank` to `[0, 100]` on construction, but the engine works
with whatever integer the ranking store returns, so `rank : ℤ` here. -/
structure User where
  unique_id : String := ""
  group : String := ""
  rank : ℤ := 0
deriving DecidableEq, Repr

/-- Source `util.get_rules_for_group`: keep the rules whose `affected_group` is
absent, is a list containing the group, or equals the group (a Python list
never compares equal to a string, so `many` only matches via membership). -/
def get_rules_for_group (rules : List LimitRule) (group : String) :
    List LimitRule :=
  rules.filter fun r =>
    match r.affected_group with
    | .all => true
    | .one g => g = group
    | .many gs => group ∈ gs

/-- Scope tag of the internal `Ignore` signals: the Python code uses the
context strings "endpoint" and "user". -/
inductive IgnoreScope where
  | endpoint : IgnoreScope
  | user : IgnoreScope
deriving DecidableEq, Repr

/-- Result of `util.get_exceeded_rule`: either one of the `Ignore` exceptions
(`IgnoreByCount` / `IgnoreByTime`) or the returned value (`some rule` for the
first exceeded rule, `none` for the implicit `return None`). -/
inductive EvalResult where
  | ignoreByCount (scope : IgnoreScope) : EvalResult
  | ignoreByTime (scope : IgnoreScope) : EvalResult
  | result (rule : Option LimitRule) : EvalResult
deriving DecidableEq, Repr

/-- Python truthiness plus `is not None`-guard used on `ignore_times`:
`x is not None and x > 0`. -/
def optPos : Option ℤ → Bool
  | some k => decide (0 < k)
  | none => false

/-- Source `ignore_until is not None and ignore_until >= now`. -/
def optStillIgnored : Option ℚ → ℚ → Bool
  | some t, now => decide (t ≥ now)
  | none, _ => false

/-- Source `hits[-1] - hits[-2]` in seconds; only meaningful when the list has at
least two elements (the caller guards with `len(hits) < 2: continue`). -/
def lastTwoDelta (hits : List ℚ) : ℚ :=
  hits.getLastD 0 - hits.dropLast.getLastD 0

/-- The per-rule test of the loop body of `util.get_exceeded_rule`
(lines 58-81): the `hits` branch counts hits in the sliding window, the
`delay` branch compares the gap between the two last hits.  When `hits` is
set but `batch_time` is absent the Python source would raise a `TypeError`
(`timedelta(seconds=None)`); such rules cannot come out of `LimitRule`
construction, and the embedding uses window width 0 for them. -/
def ruleExceeded (r : LimitRule) (hits : List ℚ) (now : ℚ) : Bool :=
  (match r.hits with
   | some h =>
     decide (((hits.filter fun t => t ≥ now - r.batch_time.getD 0).length : ℤ) ≥ h)
   | none => false)
  ||
  (match r.delay with
   | some d => decide (2 ≤ hits.length) && decide (lastTwoDelta hits < d)
   | none => false)

/-- Source `util.get_exceeded_rule`: ignore short-circuits (endpoint count, user
count, endpoint time, user time, in that order), then the first rule of the
group-filtered bundle whose threshold is crossed.  `now` is passed explicitly
(the source calls `utcnow()` itself). -/
def get_exceeded_rule (rules : List LimitRule) (endpoint user_endpoint : Endpoint)
    (group : String) (now : ℚ) : EvalResult :=
  let rules := get_rules_for_group rules group
  if optPos endpoint.ignore_times then .ignoreByCount .endpoint
  else if optPos user_endpoint.ignore_times then .ignoreByCount .user
  else if optStillIgnored endpoint.ignore_until now then .ignoreByTime .endpoint
  else if optStillIgnored user_endpoint.ignore_until now then .ignoreByTime .user
  else .result (rules.find? fun r => ruleExceeded r user_endpoint.hits now)

/-- Source `util.get_max_hits` on a single rule: `2` for a delay rule, else
`rules.hits` (`None` — impossible for a constructed rule with `delay`
unset and `hits` unset both — is embedded as 0). -/
def ruleMaxHits (r : LimitRule) : ℤ :=
  if r.delay.isSome then 2 else r.hits.getD 0

/-- Source `util.get_max_hits` on a bundle: 0 for the empty tuple, otherwise the
maximum over the rules of the per-rule value (the source computes
`get_max_hits(max(rules, key=get_max_hits))`). -/
def get_max_hits : List LimitRule → ℤ
  | [] => 0
  | r :: rs => rs.foldl (fun acc x => max acc (ruleMaxHits x)) (ruleMaxHits r)

/-- Python slice `l[s:]` for an arbitrary integer `s`: a negative start
counts from the end and clamps at 0.  In particular `l[-0:]` (i.e. `l[0:]`)
is the whole list — the quirk that makes the engine's
`hits[-get_max_hits(rules):]` a no-op when `get_max_hits` is 0. -/
def pySliceFrom (l : List ℚ) (s : ℤ) : List ℚ :=
  if 0 ≤ s then l.drop s.toNat else l.drop (l.length - (-s).toNat)

/-- Level of an ignore intent.  The drifted source variants name the
per-identity level "authority" (`context.py`) or "user" (`__init__.py`); the
embedding uses one abstract `identity` constructor for both. -/
inductive IgnoreLevel where
  | identity : IgnoreLevel
  | endpoint : IgnoreLevel
deriving DecidableEq, Repr

/-- Source `ratelimit.context._IgnoreData`. -/
structure IgnoreData where
  times : Option ℤ := none
  seconds : Option ℚ := none
  level : IgnoreLevel := .identity
  count_this : Bool := false
deriving DecidableEq, Repr

/-- Source `ratelimit.context._RankData`. -/
structure RankData where
  increase_by : Option ℤ := none
  reset : Bool := false
deriving DecidableEq, Repr

/-- Source `ratelimit.context._LimitData`. -/
structure LimitData where
  for_seconds : Option ℚ := none
  message : Option String := none
  reason : Option String := none
deriving DecidableEq, Repr

/-- Source `ratelimit.context._ContextData`: the deferred intents a handler records
through `RatelimitContext`. -/
structure ContextData where
  ignore_data : Option IgnoreData := none
  rank_data : Option RankData := none
  limit_data : Option LimitData := none
deriving DecidableEq, Repr

/-- Source `RatelimitContext.ignore_user(for_seconds, for_times, count_this)`:
records an identity-level ignore intent. -/
def ContextData.ignore_user (d : ContextData) (for_seconds : Option ℚ)
    (for_times : Option ℤ) (count_this : Bool) : ContextData :=
  { d with ignore_data := some ⟨for_times, for_seconds, .identity, count_this⟩ }

/-- Source `RatelimitContext.ignore_hit()` is `ignore_user(for_times=1, count_this=True)`. -/
def ContextData.ignore_hit (d : ContextData) : ContextData :=
  d.ignore_user none (some 1) true

/-- Python truthiness of an optional integer (`None` and `0` are falsy). -/
def pyTruthyInt : Option ℤ → Bool
  | some k => decide (k ≠ 0)
  | none => false

/-- Python truthiness of an optional number of seconds. -/
def pyTruthyQ : Option ℚ → Bool
  | some q => decide (q ≠ 0)
  | none => false

/-- Source `RatelimitContext.ignore_all_users`: endpoint-level ignore intent; when
`count_this` and `for_times` are both truthy the stored count is decremented
by one (the current request counts as one of the ignores). -/
def ContextData.ignore_all_users (d : ContextData) (for_seconds : Option ℚ)
    (for_times : Option ℤ) (count_this : Bool) : ContextData :=
  let for_times' :=
    if count_this && pyTruthyInt for_times then for_times.map (· - 1)
    else for_times
  { d with ignore_data := some ⟨for_times', for_seconds, .endpoint, count_this⟩ }

/-- Source `RatelimitContext.reset_rank()`. -/
def ContextData.reset_rank (d : ContextData) : ContextData :=
  { d with rank_data := some ⟨none, true⟩ }

/-- Source `RatelimitContext.increase_rank(by)`. -/
def ContextData.increase_rank (d : ContextData) (by' : ℤ) : ContextData :=
  { d with rank_data := some ⟨some by', false⟩ }

/-- Source `RatelimitContext.limit(for_seconds, message, reason)`. -/
def ContextData.limit (d : ContextData) (for_seconds : Option ℚ)
    (message reason : Option String) : ContextData :=
  { d with limit_data := some ⟨for_seconds, message, reason⟩ }

/-- The state the engine reads and writes during one request: the three
in-memory records (loaded at the start of the dependency) plus the persisted
copies held by the store and the ranking store.  A `save_*` call copies the
in-memory record into the corresponding `stored*` field. -/
structure EngineState where
  endpoint : Endpoint := {}
  user_endpoint : Endpoint := {}
  user : User := {}
  storedEndpoint : Endpoint := {}
  storedUserEndpoint : Endpoint := {}
  storedUser : User := {}
deriving DecidableEq, Repr

/-- Source `store.save_user_endpoint(user_endpoint, user)`. -/
def saveUserEndpoint (st : EngineState) : EngineState :=
  { st with storedUserEndpoint := st.user_endpoint }

/-- Source `store.save_endpoint(endpoint)`. -/
def saveEndpoint (st : EngineState) : EngineState :=
  { st with storedEndpoint := st.endpoint }

/-- Source `ranking.save_user(user)`. -/
def saveUser (st : EngineState) : EngineState :=
  { st with storedUser := st.user }

/-- Python indexing `ranks[i]` on the rank list for `i < len(ranks)`: a
negative index counts from the end.  (For `i < -len(ranks)` Python raises
`IndexError`; pydantic validates `rank ≥ 0`, so that branch is unreachable
and the embedding clamps to the front.) -/
def pyIndexBundle (ranks : List (List LimitRule)) (i : ℤ) : List LimitRule :=
  if 0 ≤ i then (ranks.drop i.toNat).headD []
  else (ranks.drop (ranks.length - (-i).toNat)).headD []

/-- Bundle selection of the dependency (lines 155-158):
`ranks[-1]` when `user.rank >= len(ranks)`, else `ranks[user.rank]`.
An empty rank list would raise `IndexError` in Python; the embedding returns
the empty bundle. -/
def bundleFor (ranks : List (List LimitRule)) (rank : ℤ) : List LimitRule :=
  if rank ≥ ranks.length then (ranks.getLastD []) else pyIndexBundle ranks rank

/-- The data of a raised `RateLimitedError` that the claims inspect. -/
structure LimitedInfo where
  rule : LimitRule
  limited_at : ℚ
  limited_for : ℤ
deriving DecidableEq, Repr

/-- Source `RateLimitedError.__init__`'s `limited_for` computation:
`ceil(limited_at + block_time - now)`, overridden to
`ceil(endpoint.hits[-1] + delay - now)` when the `no_block_delay` option is
passed and the rule is delay-based. -/
def limitedFor (rule : LimitRule) (ep : Endpoint) (limited_at now : ℚ)
    (no_block_delay_opt : Bool) : ℤ :=
  match rule.delay with
  | some d =>
    if no_block_delay_opt then ⌈ep.hits.getLastD 0 + d - now⌉
    else ⌈limited_at + rule.block_time - now⌉
  | none => ⌈limited_at + rule.block_time - now⌉

/-- The `RateLimitedError` raised by the pre-existing-block check
(dependency lines 135-153); only reached when `isBlocked` is true, in which
case both optional fields are set. -/
def blockedInfo (ep : Endpoint) (now : ℚ) : LimitedInfo :=
  match ep.blocked_by_rule, ep.blocked_at with
  | some r, some t => ⟨r, t, limitedFor r ep t now false⟩
  | _, _ => ⟨{}, 0, 0⟩

/-- Source `min(user.rank + 1, len(ranks))` — the automatic promotion applied when
an exceeded rule has `increase_rank` (dependency line 175). -/
def promoteRank (rank : ℤ) (numRanks : ℕ) : ℤ :=
  min (rank + 1) numRanks

/-- Source `user_endpoint.ignore_times -= 1` (only reached when the field is a
positive integer, so the `None` case is unreachable). -/
def decOpt : Option ℤ → Option ℤ
  | some k => some (k - 1)
  | none => none

/-- Outcome of the pre-handler phase of the dependency: rejection by a
pre-existing block, immediate rejection by a delay rule, or proceeding to
the handler (carrying the exceeded rule bound into the context). -/
inductive PreOutcome where
  | blockedError (info : LimitedInfo) : PreOutcome
  | limited (info : LimitedInfo) : PreOutcome
  | proceed (rule : Option LimitRule) : PreOutcome
deriving DecidableEq, Repr

/-- Dependency lines 155-255 (after the pre-existing-block check): append the
hit, evaluate the rules, trim the hit log, promote / block / pop and save, or
handle the `Ignore` signals. -/
def prePhaseMain (ranks : List (List LimitRule)) (no_block_delay : Bool)
    (now : ℚ) (st : EngineState) : PreOutcome × EngineState :=
  let rules := bundleFor ranks st.user.rank
  let ue := { st.user_endpoint with hits := st.user_endpoint.hits ++ [now] }
  match get_exceeded_rule rules st.endpoint ue st.user.group now with
  | .ignoreByCount .user =>
    let ue2 := { ue with hits := [], ignore_times := decOpt ue.ignore_times }
    (.proceed none, saveUserEndpoint { st with user_endpoint := ue2 })
  | .ignoreByCount .endpoint =>
    let ep2 := { st.endpoint with ignore_times := decOpt st.endpoint.ignore_times }
    (.proceed none,
      saveEndpoint { st with endpoint := ep2, user_endpoint := { ue with hits := [] } })
  | .ignoreByTime _ =>
    (.proceed none, { st with user_endpoint := { ue with hits := [] } })
  | .result rule? =>
    let ue2 := { ue with hits := pySliceFrom ue.hits (-(get_max_hits rules)) }
    match rule? with
    | none => (.proceed none, saveUserEndpoint { st with user_endpoint := ue2 })
    | some rule =>
      let st1 :=
        if rule.increase_rank then
          saveUser { st with user := { st.user with rank := promoteRank st.user.rank ranks.length } }
        else st
      let ue3 :=
        if ¬(rule.delay.isSome ∧ no_block_delay) then
          { ue2 with blocked_by_rule := some rule, blocked_at := some now }
        else
          { ue2 with hits := ue2.hits.dropLast }
      let st2 := saveUserEndpoint { st1 with user_endpoint := ue3 }
      if rule.delay.isSome then
        (.limited ⟨rule, now, limitedFor rule ue3 now now no_block_delay⟩, st2)
      else
        (.proceed (some rule), st2)

/-- The pre-handler phase of the dependency: the pre-existing-block check
(lines 135-153) followed by `prePhaseMain`. -/
def prePhase (ranks : List (List LimitRule)) (no_block_delay : Bool)
    (now : ℚ) (st : EngineState) : PreOutcome × EngineState :=
  if st.user_endpoint.isBlocked now then
    (.blockedError (blockedInfo st.user_endpoint now), st)
  else prePhaseMain ranks no_block_delay now st

/-- A Python exception as the handler-exception logic sees it: `cls` is the
exception's own class name and `classes` its method resolution order (so
`isinstance(e, C)` is `C ∈ classes`). -/
structure Exc where
  cls : String := ""
  classes : List String := []
deriving DecidableEq, Repr

/-- Source `isinstance(e, HTTPException)`. -/
def Exc.isHTTP (e : Exc) : Bool := e.classes.contains "HTTPException"

/-- Source `isinstance(e, no_hit_on_exceptions)`: instance of some listed class. -/
def Exc.matchesNoHit (e : Exc) (no_hit : List String) : Bool :=
  no_hit.any fun c => e.classes.contains c

/-- Dependency lines 263-277: state changes applied when the wrapped handler
raises.  An `HTTPException` instance propagates untouched unless the
`HTTPException` class itself is listed in `no_hit_on_exceptions`; otherwise
an exception matching `no_hit_on_exceptions` has the just-appended hit
removed (first occurrence) and the local record re-saved, when the hit is
still present. -/
def handlerExcPhase (no_hit : List String) (e : Exc) (now : ℚ)
    (st : EngineState) : EngineState :=
  if e.isHTTP && !(no_hit.contains "HTTPException") then st
  else if e.matchesNoHit no_hit && decide (now ∈ st.user_endpoint.hits) then
    saveUserEndpoint
      { st with user_endpoint :=
          { st.user_endpoint with hits := st.user_endpoint.hits.erase now } }
  else st

/-- Dependency lines 292-351: application of a recorded ignore intent.
`seconds` is read with Python truthiness (`0` behaves like `None` and clears
`ignore_until`). -/
def applyIgnoreIntent (d : IgnoreData) (now : ℚ) (st : EngineState) :
    EngineState :=
  let until' : Option ℚ :=
    if pyTruthyQ d.seconds then some (now + d.seconds.getD 0) else none
  match d.level with
  | .endpoint =>
    let st1 := saveEndpoint
      { st with endpoint :=
          { st.endpoint with ignore_times := d.times, ignore_until := until' } }
    if d.count_this && decide (now ∈ st1.user_endpoint.hits) then
      saveUserEndpoint
        { st1 with user_endpoint :=
            { st1.user_endpoint with hits := st1.user_endpoint.hits.erase now } }
    else st1
  | .identity =>
    let ue := { st.user_endpoint with ignore_times := d.times, ignore_until := until' }
    let ue2 :=
      if d.count_this && decide (now ∈ ue.hits) then
        { ue with hits := ue.hits.erase now }
      else ue
    saveUserEndpoint { st with user_endpoint := ue2 }

/-- Rank after a rank intent (dependency lines 356-369): `reset` zeroes,
else a truthy `increase_by` adds with a floor at 0, else no change. -/
def rankAfterIntent (d : RankData) (rank : ℤ) : ℤ :=
  if d.reset then 0
  else if pyTruthyInt d.increase_by then max (rank + d.increase_by.getD 0) 0
  else rank

/-- Dependency lines 353-382: apply a rank intent and save the user (the
save happens even when neither branch changed the rank). -/
def applyRankIntent (d : RankData) (st : EngineState) : EngineState :=
  saveUser { st with user := { st.user with rank := rankAfterIntent d st.user.rank } }

/-- Dependency lines 384-420: apply a limit intent — build a synthetic
`LimitRule(hits=1, batch_time=1, block_time=B)` where `B` is the intent's
`for_seconds`, else the first rule of the bundle, else `DEFAULT_BLOCK_TIME`,
and persist the block. -/
def applyLimitIntent (d : LimitData) (bundle : List LimitRule) (now : ℚ)
    (st : EngineState) : EngineState :=
  let block_time : ℚ :=
    match d.for_seconds with
    | some s => s
    | none => match bundle with
              | [] => DEFAULT_BLOCK_TIME
              | r :: _ => r.block_time
  let rule : LimitRule :=
    { hits := some 1, batch_time := some 1, message := d.message,
      reason := d.reason, block_time := block_time }
  saveUserEndpoint
    { st with user_endpoint :=
        { st.user_endpoint with blocked_by_rule := some rule, blocked_at := some now } }

/-- Dependency lines 292-420: intent application in source order
(ignore → rank → limit), executed only when the handler returned normally. -/
def intentPhase (ctx : ContextData) (bundle : List LimitRule) (now : ℚ)
    (st : EngineState) : EngineState :=
  let st1 := match ctx.ignore_data with
             | some d => applyIgnoreIntent d now st
             | none => st
  let st2 := match ctx.rank_data with
             | some d => applyRankIntent d st1
             | none => st1
  match ctx.limit_data with
  | some d => applyLimitIntent d bundle now st2
  | none => st2

/-- What the wrapped handler did: returned normally with the intents its
`RatelimitContext` accumulated, or raised an exception. -/
inductive HandlerResult where
  | ok (ctx : ContextData) : HandlerResult
  | exc (e : Exc) : HandlerResult
deriving DecidableEq, Repr

/-- Overall outcome of one request through the dependency. -/
inductive ReqResult where
  | blockedError (info : LimitedInfo) : ReqResult
  | limited (info : LimitedInfo) : ReqResult
  | handlerError (e : Exc) : ReqResult
  | success : ReqResult
deriving DecidableEq, Repr

/-- The full dependency for one request (`ratelimit.dependency`): pre-handler
phase, handler, exception handling, intent application.  The bundle used by a
limit intent is the one selected from the rank loaded at the start of the
request (the source computes `rules` once, before any promotion). -/
def runDependency (ranks : List (List LimitRule)) (no_block_delay : Bool)
    (no_hit : List String) (handler : HandlerResult) (now : ℚ)
    (st : EngineState) : ReqResult × EngineState :=
  let bundle := bundleFor ranks st.user.rank
  match prePhase ranks no_block_delay now st with
  | (.blockedError info, st') => (.blockedError info, st')
  | (.limited info, st') => (.limited info, st')
  | (.proceed _, st') =>
    match handler with
    | .exc e => (.handlerError e, handlerExcPhase no_hit e now st')
    | .ok ctx => (.success, intentPhase ctx bundle now st')

/-- The configuration the setup installs: the store and the ranking backends
(opaque here), absent before `setup_ratelimit` runs.  One source variant
keeps them as module globals (`config.STORE` / `config.RANKING`), the other
as attributes on the app (`hasattr(app, "STORE") and hasattr(app, "RANKING")`
in `util.is_setup`); both reduce to "the two slots are filled". -/
structure ConfigState where
  store : Option Unit := none
  ranking : Option Unit := none
deriving DecidableEq, Repr

/-- Source `util.is_setup`. -/
def is_setup (cfg : ConfigState) : Bool :=
  cfg.store.isSome && cfg.ranking.isSome

/-- Source `setup_ratelimit` (lines 35-77): fails with `ValueError` when already
set up, otherwise fills both slots. -/
def setup_ratelimit (cfg : ConfigState) : Except String ConfigState :=
  if is_setup cfg then .error "RateLimit already setup"
  else .ok { store := some (), ranking := some () }

/-- Dependency lines 100-101: the guard every request runs first — raises
`ValueError("RateLimit is not setup")` when invoked before setup. -/
def dependencyGuard (cfg : ConfigState) : Except String Unit :=
  if !is_setup cfg then .error "RateLimit is not setup" else .ok ()

/-! ### Spec-side definitions

The following definitions are translated from the specification's and the
claims' words (not from the source); they exist to be compared with the
source-derived definitions above. -/

/-- Claim C1's per-rule threshold description: "a hits rule is crossed when
the number of timestamps in the record's hits that are `>= now - batch_time`
is `>= rule.hits`; a delay rule is skipped when the record has fewer than 2
hits and is crossed when `hits[-1] - hits[-2] < rule.delay`". -/
def specRuleCrossed (r : LimitRule) (hits : List ℚ) (now : ℚ) : Bool :=
  (r.hits.isSome &&
    decide (((hits.filter fun t => now - r.batch_time.getD 0 ≤ t).length : ℤ)
              ≥ r.hits.getD 0))
  || (r.delay.isSome && decide (¬ hits.length < 2) &&
       decide (hits.getLastD 0 - hits.dropLast.getLastD 0 < r.delay.getD 0))

/-- Claim C1's group filter: "the rules kept by the group filter
(`affected_group` absent, equal to the group, or a list containing the
group)". -/
def specGroupKept (r : LimitRule) (group : String) : Bool :=
  match r.affected_group with
  | .all => true
  | .one g => decide (g = group)
  | .many gs => decide (group ∈ gs)

/-- Claim C1's evaluator description: the first rule, in declaration order
among the filtered rules, whose threshold is crossed; `none` when no
filtered rule is crossed. -/
def specFirstCrossed (rules : List LimitRule) (hits : List ℚ) (group : String)
    (now : ℚ) : Option LimitRule :=
  (rules.filter fun r => specGroupKept r group).find? fun r =>
    specRuleCrossed r hits now

/-- Claim C5's success condition, from its words: "either delay is set alone
or both hits and batch_time are set, delay is mutually exclusive with
hits/batch_time, every numeric field that is set (hits, batch_time, delay,
and block_time) is strictly positive, and affected_group, when it is a list,
is non-empty". -/
def specC5ConstructionOk (r : LimitRule) : Bool :=
  ((r.delay.isSome && r.hits.isNone && r.batch_time.isNone) ||
   (r.hits.isSome && r.batch_time.isSome && r.delay.isNone))
  && (match r.hits with | some h => decide (0 < h) | none => true)
  && (match r.batch_time with | some b => decide (0 < b) | none => true)
  && (match r.delay with | some d => decide (0 < d) | none => true)
  && decide (0 < r.block_time)
  && (match r.affected_group with | .many gs => !gs.isEmpty | _ => true)

/-- How `LimitRule` construction actually behaves (claim C5 amended): the
source never validates `block_time`, and a rule with only `batch_time` set
(no `hits`, no `delay`) passes every check. -/
def amendedC5ConstructionOk (r : LimitRule) : Bool :=
  ((r.delay.isSome && r.hits.isNone && r.batch_time.isNone) ||
   (r.batch_time.isSome && r.delay.isNone))
  && (match r.hits with | some h => decide (0 < h) | none => true)
  && (match r.batch_time with | some b => decide (0 < b) | none => true)
  && (match r.delay with | some d => decide (0 < d) | none => true)
  && (match r.affected_group with | .many gs => !gs.isEmpty | _ => true)

/-! ### Sample data for concrete witnesses -/

/-- A one-hit-per-second rule with a 60-second block. -/
def rule_h1 : LimitRule := { hits := some 1, batch_time := some 1, block_time := 60 }

/-- The `hits=3, batch_time=10` rule of the specification's scenarios. -/
def rule_h3 : LimitRule := { hits := some 3, batch_time := some 10 }

/-- A 1-second delay rule. -/
def rule_d1 : LimitRule := { delay := some 1 }

/-- A state whose per-identity record was blocked by `rule_h1` at time 0. -/
def blockedState : EngineState :=
  { user_endpoint := { blocked_at := some 0, blocked_by_rule := some rule_h1 } }

/-- A state with one hit at time 0. -/
def oneHitState : EngineState := { user_endpoint := { hits := [0] } }

/-- A state with one hit at time 0 and three identity-scope ignores left. -/
def ignoreState : EngineState :=
  { user_endpoint := { hits := [0], ignore_times := some 3 } }

/-- A state with one hit at time 0 and an identity-scope time ignore until
time 5. -/
def ignoreTimeState : EngineState :=
  { user_endpoint := { hits := [0], ignore_until := some 5 } }

/-- An exception whose own class `MyExc` subclasses `HTTPException`. -/
def subclassExc : Exc :=
  { cls := "MyExc", classes := ["MyExc", "HTTPException", "Exception"] }

/-- A plain (non-HTTP) `ValueError` instance. -/
def valueErrorExc : Exc :=
  { cls := "ValueError", classes := ["ValueError", "Exception"] }

/-!
## Theorems

One theorem per claim (with counterexamples and witnesses where needed),
preceded by shared helper lemmas.
-/

theorem optPos_true {o : Option ℤ} {k : ℤ} (h : o = some k) (hk : 0 < k) :
    optPos o = true := by
  subst h; simp [optPos, hk]

theorem length_pySliceFrom_neg (l : List ℚ) (m : ℤ) (hm : 1 ≤ m) :
    (pySliceFrom l (-m)).length ≤ m.toNat := by
  unfold pySliceFrom
  have hneg : ¬ (0 ≤ -m) := by omega
  simp only [hneg, if_false, List.length_drop]
  omega

theorem pySliceFrom_suffix (l : List ℚ) (s : ℤ) : (pySliceFrom l s) <:+ l := by
  unfold pySliceFrom
  split <;> exact List.drop_suffix _ _

theorem not_mem_dropLast_drop_concat (l : List ℚ) (x : ℚ) (n : ℕ)
    (hx : x ∉ l) : x ∉ ((l ++ [x]).drop n).dropLast := by
  by_cases hn : n ≤ l.length
  · rw [List.drop_append_of_le_length hn, List.dropLast_concat]
    exact fun hmem => hx (List.mem_of_mem_drop hmem)
  · rw [List.drop_eq_nil_of_le (by simp; omega)]
    simp

theorem not_mem_dropLast_pySliceFrom (l : List ℚ) (x : ℚ) (s : ℤ)
    (hx : x ∉ l) : x ∉ (pySliceFrom (l ++ [x]) s).dropLast := by
  unfold pySliceFrom
  split <;> exact not_mem_dropLast_drop_concat l x _ hx

/-- Claim C5, counterexample: `LimitRule(batch_time=5)` (neither `delay`
alone nor `hits` with `batch_time`) constructs successfully, and
`LimitRule(delay=1, block_time=0)` constructs successfully although
`block_time` is not strictly positive — both contradicting the claimed
"succeeds if and only if". -/
theorem c5_claim_counterexample :
    LimitRule.constructionOk { batch_time := some 5 } = true ∧
    specC5ConstructionOk { batch_time := some 5 } = false ∧
    LimitRule.constructionOk { delay := some 1, block_time := 0 } = true ∧
    specC5ConstructionOk { delay := some 1, block_time := 0 } = false := by
  decide

/-- Claim C5, amended: `LimitRule` construction succeeds iff either `delay`
is set alone or `batch_time` is set without `delay` (`hits` optional but, if
set, accompanied by `batch_time`), every one of `hits`, `batch_time`, `delay`
that is set is strictly positive, and a list-valued `affected_group` is
non-empty.  `block_time` is not validated. -/
theorem c5_construction_amended (r : LimitRule) :
    r.constructionOk = amendedC5ConstructionOk r := by
  rcases r with ⟨h, b, d, bt, ir, m, rs, ag⟩
  cases h <;> cases b <;> cases d <;> cases ag <;>
    simp [LimitRule.constructionOk, LimitRule.postInitError,
      amendedC5ConstructionOk, not_le, List.isEmpty_iff, decide_eq_true_eq]
    <;> first
      | rfl
      | (split_ifs <;> simp_all)

theorem find?_congr_fn {α : Type} (p q : α → Bool) (l : List α)
    (h : ∀ a, p a = q a) : l.find? p = l.find? q := by
  induction l with
  | nil => rfl
  | cons a t ih => simp [List.find?, h a, ih]

theorem ruleExceeded_eq_spec (r : LimitRule) (hits : List ℚ) (now : ℚ) :
    ruleExceeded r hits now = specRuleCrossed r hits now := by
  unfold ruleExceeded specRuleCrossed lastTwoDelta
  rcases r with ⟨h, b, d, bt, ir, m, rs, ag⟩
  cases h <;> cases d <;> simp [Nat.not_lt]

theorem get_rules_for_group_eq_spec (rules : List LimitRule) (group : String) :
    get_rules_for_group rules group = rules.filter (specGroupKept · group) := by
  unfold get_rules_for_group specGroupKept
  rfl

/-- Claim C1: whenever no ignore short-circuit is active on either record,
the evaluator returns exactly the first rule — in declaration order among
the group-filtered rules — whose threshold (sliding-window count for a hits
rule, last-gap for a delay rule with at least two hits) is crossed, and
reports no violation when no filtered rule is crossed. -/
theorem c1_evaluator_first_match (rules : List LimitRule)
    (ep ue : Endpoint) (group : String) (now : ℚ)
    (h1 : optPos ep.ignore_times = false)
    (h2 : optPos ue.ignore_times = false)
    (h3 : optStillIgnored ep.ignore_until now = false)
    (h4 : optStillIgnored ue.ignore_until now = false) :
    get_exceeded_rule rules ep ue group now
      = .result (specFirstCrossed rules ue.hits group now) := by
  unfold get_exceeded_rule specFirstCrossed
  rw [h1, h2, h3, h4]
  simp only [Bool.false_eq_true, if_false]
  rw [get_rules_for_group_eq_spec]
  exact congrArg EvalResult.result
    (find?_congr_fn _ _ _ fun r => ruleExceeded_eq_spec r ue.hits now)

/-- Witness for C1: three hits in a 10-second window cross `rule_h3` on its
third request. -/
theorem c1_evaluator_first_match_witness :
    get_exceeded_rule [rule_h3] {} { hits := [0, 1, 2] } "" 2
      = .result (specFirstCrossed [rule_h3] ({ hits := [0, 1, 2] } : Endpoint).hits "" 2) :=
  c1_evaluator_first_match [rule_h3] {} { hits := [0, 1, 2] } "" 2
    rfl rfl rfl rfl

/-- Claim C9: a request through the dependency before setup fails with the
not-configured `ValueError`, and running `setup_ratelimit` again after a
successful setup fails with the already-setup `ValueError`. -/
theorem c9_setup_lifecycle :
    (∀ cfg : ConfigState, is_setup cfg = false →
        dependencyGuard cfg = .error "RateLimit is not setup") ∧
    (∀ cfg cfg' : ConfigState, setup_ratelimit cfg = .ok cfg' →
        setup_ratelimit cfg' = .error "RateLimit already setup") := by
  refine ⟨fun cfg h => by simp [dependencyGuard, h], fun cfg cfg' h => ?_⟩
  unfold setup_ratelimit at h ⊢
  split at h
  · exact absurd h (by simp)
  · injection h with h'
    subst h'
    simp [is_setup]

/-- Witness for C9: the fresh configuration rejects requests, and the
configuration produced by a first setup rejects a second setup. -/
theorem c9_setup_lifecycle_witness :
    dependencyGuard {} = .error "RateLimit is not setup" ∧
    setup_ratelimit { store := some (), ranking := some () }
      = .error "RateLimit already setup" :=
  ⟨c9_setup_lifecycle.1 {} rfl,
   c9_setup_lifecycle.2 {} { store := some (), ranking := some () } rfl⟩

/-- Claim C2: a request whose per-identity record is blocked
(`blocked_by_rule` set and `blocked_at + block_time > now`) is rejected with
the `RateLimitedError` of the pre-existing-block check and leaves the whole
state — in particular the record's `hits` list — untouched. -/
theorem c2_blocked_rejects_without_hit (ranks : List (List LimitRule))
    (nbd : Bool) (no_hit : List String) (handler : HandlerResult) (now : ℚ)
    (st : EngineState) (r : LimitRule) (t : ℚ)
    (hr : st.user_endpoint.blocked_by_rule = some r)
    (ht : st.user_endpoint.blocked_at = some t)
    (hb : t + r.block_time > now) :
    runDependency ranks nbd no_hit handler now st
      = (.blockedError (blockedInfo st.user_endpoint now), st) := by
  have hB : st.user_endpoint.isBlocked now = true := by
    unfold Endpoint.isBlocked
    rw [hr, ht]
    simpa using hb
  simp [runDependency, prePhase, hB]

/-- Witness for C2: a request at t=3 against a record blocked at t=0 by a
60-second rule is rejected and the state is unchanged. -/
theorem c2_blocked_rejects_without_hit_witness :
    runDependency [[rule_h1]] true [] (.ok {}) 3 blockedState
      = (.blockedError (blockedInfo blockedState.user_endpoint 3), blockedState) :=
  c2_blocked_rejects_without_hit [[rule_h1]] true [] (.ok {}) 3 blockedState
    rule_h1 0 rfl rfl (by decide)

/-- Claim C7, counterexample: the `increase_by` rank intent has no upper
saturation — `increase_by 5` from rank 0 under a single-bundle rank set
leaves the identity at rank 5, outside `[0, len(ranks)] = [0, 1]`. -/
theorem c7_claim_counterexample :
    (applyRankIntent { increase_by := some 5 } {}).user.rank = 5 ∧
    ¬((applyRankIntent { increase_by := some 5 } ({} : EngineState)).user.rank
        ≤ (([[]] : List (List LimitRule)).length : ℤ)) := by
  decide

/-- Claim C7, amended: automatic promotion keeps the rank in
`[0, len(ranks)]` and the reset intent sets it to 0, but the `increase_by`
intent only guarantees the lower bound 0; the runtime bundle selection
nevertheless stays valid — for every non-negative rank it picks a member of
the rank list. -/
theorem c7_rank_bounds_amended :
    (∀ (rank : ℤ) (n : ℕ), 0 ≤ rank →
        0 ≤ promoteRank rank n ∧ promoteRank rank n ≤ n) ∧
    (∀ (d : RankData) (rank : ℤ), 0 ≤ rank → 0 ≤ rankAfterIntent d rank) ∧
    (∀ (d : RankData) (rank : ℤ), d.reset = true → rankAfterIntent d rank = 0) ∧
    (∀ (ranks : List (List LimitRule)) (rank : ℤ), ranks ≠ [] → 0 ≤ rank →
        bundleFor ranks rank ∈ ranks) := by
  refine ⟨fun rank n h => ?_, fun d rank h => ?_, fun d rank h => ?_,
    fun ranks rank hne h => ?_⟩
  · unfold promoteRank
    omega
  · unfold rankAfterIntent
    split_ifs <;> omega
  · simp [rankAfterIntent, h]
  · unfold bundleFor pyIndexBundle
    by_cases hge : rank ≥ (ranks.length : ℤ)
    · rw [if_pos hge, List.getLastD_eq_getLast?]
      rcases ranks with _ | ⟨a, l⟩
      · exact absurd rfl hne
      · rw [List.getLast?_eq_getLast (a :: l) (by simp)]
        exact Option.getD_some ▸ List.getLast_mem _
    · rw [if_neg hge, if_pos h]
      have hlt : rank.toNat < ranks.length := by omega
      have hd : ranks.drop rank.toNat ≠ [] := by
        intro hnil
        have := List.drop_eq_nil_iff.mp hnil
        omega
      rw [List.headD_eq_head?_getD, List.head?_eq_head hd, Option.getD_some]
      exact List.drop_subset _ _ (List.head_mem hd)

/-- Witness for C7: concrete promotion, negative increase, reset and bundle
selection instances. -/
theorem c7_rank_bounds_amended_witness :
    (0 ≤ promoteRank 2 1 ∧ promoteRank 2 1 ≤ (1 : ℕ)) ∧
    (0 ≤ rankAfterIntent { increase_by := some (-7) } 3) ∧
    rankAfterIntent { reset := true } 9 = 0 ∧
    bundleFor [[rule_h1]] 0 ∈ [[rule_h1]] :=
  ⟨c7_rank_bounds_amended.1 2 1 (by decide),
   c7_rank_bounds_amended.2.1 _ 3 (by decide),
   c7_rank_bounds_amended.2.2.1 _ 9 rfl,
   c7_rank_bounds_amended.2.2.2 [[rule_h1]] 0 (by simp) (by decide)⟩

/-- Claim C8, counterexample: `no_hit_on_exceptions = (MyExc,)` where
`MyExc` subclasses `HTTPException`.  The raised exception's own class is
listed (so the claim requires the hit to be removed), yet the engine takes
the HTTP branch — it tests whether the `HTTPException` base class itself is
listed — and the hit survives. -/
theorem c8_claim_counterexample :
    handlerExcPhase ["MyExc"] subclassExc 0 oneHitState = oneHitState ∧
    Exc.isHTTP subclassExc = true ∧
    subclassExc.cls ∈ ["MyExc"] ∧
    subclassExc.matchesNoHit ["MyExc"] = true ∧
    (0 : ℚ) ∈ oneHitState.user_endpoint.hits := by
  decide

/-- Claim C8, amended: an `HTTPException` instance propagates with no state
change unless the `HTTPException` base class itself is in
`no_hit_on_exceptions` (regardless of the instance's own class); when the
HTTP carve-out does not apply, an exception matching `no_hit_on_exceptions`
with the hit still present has `now` removed and the local record re-saved;
an exception matching nothing propagates with the state intact. -/
theorem c8_exception_hit_policy_amended (no_hit : List String) (e : Exc)
    (now : ℚ) (st : EngineState) :
    (e.isHTTP = true → no_hit.contains "HTTPException" = false →
        handlerExcPhase no_hit e now st = st) ∧
    (¬(e.isHTTP = true ∧ no_hit.contains "HTTPException" = false) →
        e.matchesNoHit no_hit = true → now ∈ st.user_endpoint.hits →
        handlerExcPhase no_hit e now st
          = saveUserEndpoint { st with user_endpoint :=
              { st.user_endpoint with
                  hits := st.user_endpoint.hits.erase now } }) ∧
    (e.matchesNoHit no_hit = false → handlerExcPhase no_hit e now st = st) := by
  refine ⟨fun h1 h2 => ?_, fun hc hm hmem => ?_, fun hm => ?_⟩
  · unfold handlerExcPhase
    rw [h1, h2]
    simp
  · have hfirst : (e.isHTTP && !(no_hit.contains "HTTPException")) = false := by
      cases hH : e.isHTTP <;> cases hcont : no_hit.contains "HTTPException" <;>
        simp_all
    unfold handlerExcPhase
    rw [hfirst, hm]
    simp [hmem]
  · unfold handlerExcPhase
    split_ifs with h1 h2
    · rfl
    · rw [hm] at h2
      simp at h2
    · rfl

/-- Witness for C8: a plain `ValueError` listed in `no_hit_on_exceptions`
gets its hit reverted; one matching nothing leaves the state alone. -/
theorem c8_exception_hit_policy_amended_witness :
    handlerExcPhase ["ValueError"] valueErrorExc 0 oneHitState
      = saveUserEndpoint { oneHitState with user_endpoint :=
          { oneHitState.user_endpoint with
              hits := oneHitState.user_endpoint.hits.erase 0 } } ∧
    handlerExcPhase ["KeyError"] valueErrorExc 0 oneHitState = oneHitState :=
  ⟨(c8_exception_hit_policy_amended ["ValueError"] valueErrorExc 0 oneHitState).2.1
      (by decide) (by decide) (by decide),
   (c8_exception_hit_policy_amended ["KeyError"] valueErrorExc 0 oneHitState).2.2
      (by decide)⟩

theorem length_erase_le_q (l : List ℚ) (a : ℚ) :
    (l.erase a).length ≤ l.length :=
  (List.erase_sublist a l).length_le

theorem applyIgnoreIntent_hits_le (d : IgnoreData) (now : ℚ)
    (st : EngineState) :
    (applyIgnoreIntent d now st).user_endpoint.hits.length
      ≤ st.user_endpoint.hits.length := by
  unfold applyIgnoreIntent
  rcases d with ⟨times, secs, lvl, ct⟩
  cases lvl <;> dsimp only <;> split_ifs <;>
    simp [saveEndpoint, saveUserEndpoint, length_erase_le_q]

theorem intentPhase_hits_le (ctx : ContextData) (bundle : List LimitRule)
    (now : ℚ) (st : EngineState) :
    (intentPhase ctx bundle now st).user_endpoint.hits.length
      ≤ st.user_endpoint.hits.length := by
  unfold intentPhase
  rcases ctx with ⟨ig, rk, lim⟩
  dsimp only
  have hig : (match ig with
      | some d => applyIgnoreIntent d now st
      | none => st).user_endpoint.hits.length ≤ st.user_endpoint.hits.length := by
    cases ig with
    | none => exact le_refl _
    | some d => exact applyIgnoreIntent_hits_le d now st
  generalize (match ig with
      | some d => applyIgnoreIntent d now st
      | none => st) = st1 at hig
  have hrk : (match rk with
      | some d => applyRankIntent d st1
      | none => st1).user_endpoint.hits.length = st1.user_endpoint.hits.length := by
    cases rk <;> rfl
  generalize (match rk with
      | some d => applyRankIntent d st1
      | none => st1) = st2 at hrk
  have hlim : (match lim with
      | some d => applyLimitIntent d bundle now st2
      | none => st2).user_endpoint.hits.length
        = st2.user_endpoint.hits.length := by
    cases lim <;> rfl
  omega

theorem handlerExcPhase_hits_le (no_hit : List String) (e : Exc) (now : ℚ)
    (st : EngineState) :
    (handlerExcPhase no_hit e now st).user_endpoint.hits.length
      ≤ st.user_endpoint.hits.length := by
  unfold handlerExcPhase
  split_ifs <;> simp [saveUserEndpoint, length_erase_le_q]

theorem prePhase_hits_le (ranks : List (List LimitRule)) (nbd : Bool)
    (now : ℚ) (st : EngineState)
    (hmax : 1 ≤ get_max_hits (bundleFor ranks st.user.rank))
    (hb : st.user_endpoint.isBlocked now = false) :
    ((prePhase ranks nbd now st).2.user_endpoint.hits.length : ℤ)
      ≤ get_max_hits (bundleFor ranks st.user.rank) := by
  have hslice := length_pySliceFrom_neg
    (st.user_endpoint.hits ++ [now]) (get_max_hits (bundleFor ranks st.user.rank)) hmax
  unfold prePhase
  rw [hb]
  simp only [Bool.false_eq_true, if_false, prePhaseMain]
  split
  · simp [saveUserEndpoint]
    omega
  · simp [saveEndpoint]
    omega
  · simp
    omega
  · split
    · simp [saveUserEndpoint]
      omega
    · have hdrop := List.length_dropLast
        (pySliceFrom (st.user_endpoint.hits ++ [now])
          (-get_max_hits (bundleFor ranks st.user.rank)))
      split <;> simp [saveUserEndpoint] <;> split <;> simp <;> omega

/-- Claim C3, counterexample: under an empty rule bundle `MaxHits` is 0, but
Python's `hits[-0:]` slice keeps the whole list, so a processed request ends
with one hit — more than `MaxHits`. -/
theorem c3_claim_counterexample :
    ¬(((runDependency [[]] true [] (.ok {}) 0 {}).2.user_endpoint.hits.length : ℤ)
        ≤ get_max_hits (bundleFor [[]] ({} : EngineState).user.rank)) := by
  decide

/-- Claim C3, amended: for every request that passes the pre-existing-block
check, when the applicable bundle's `MaxHits` is at least 1 (any bundle
holding a delay rule or a positive-hits rule), the per-identity record ends
the request with at most `MaxHits` recorded hits. -/
theorem c3_hits_bound_amended (ranks : List (List LimitRule)) (nbd : Bool)
    (no_hit : List String) (handler : HandlerResult) (now : ℚ)
    (st : EngineState)
    (hmax : 1 ≤ get_max_hits (bundleFor ranks st.user.rank))
    (hb : st.user_endpoint.isBlocked now = false) :
    ((runDependency ranks nbd no_hit handler now
        st).2.user_endpoint.hits.length : ℤ)
      ≤ get_max_hits (bundleFor ranks st.user.rank) := by
  have hpre := prePhase_hits_le ranks nbd now st hmax hb
  unfold runDependency
  rcases hmatch : prePhase ranks nbd now st with ⟨out, st'⟩
  rw [hmatch] at hpre
  dsimp only at hpre
  cases out with
  | blockedError info => simpa using hpre
  | limited info => simpa using hpre
  | proceed rule? =>
    cases handler with
    | exc e =>
      have h := handlerExcPhase_hits_le no_hit e now st'
      simp only []
      omega
    | ok ctx =>
      have h := intentPhase_hits_le ctx (bundleFor ranks st.user.rank) now st'
      simp only []
      omega

/-- Witness for C3: one prior hit under `rule_h3` (`MaxHits = 3`); after the
request at t=2 the record holds at most 3 hits. -/
theorem c3_hits_bound_amended_witness :
    ((runDependency [[rule_h3]] true [] (.ok {}) 2
        oneHitState).2.user_endpoint.hits.length : ℤ)
      ≤ get_max_hits (bundleFor [[rule_h3]] oneHitState.user.rank) :=
  c3_hits_bound_amended [[rule_h3]] true [] (.ok {}) 2 oneHitState
    (by decide) rfl

/-- Claim C4: when the evaluator finds a delay rule and `no_block_delay` is
set, the request fails with a `RateLimitedError` carrying
`limited_for = ceil(hits[-1] + delay - now)` computed on the record after the
just-appended hit was popped; afterwards the per-identity record is not
blocked, `now` is no longer in its hits, and the popped record is what was
saved. -/
theorem c4_delay_no_block (ranks : List (List LimitRule))
    (no_hit : List String) (handler : HandlerResult) (now : ℚ)
    (st : EngineState) (r : LimitRule) (d : ℚ)
    (hb : st.user_endpoint.isBlocked now = false)
    (he : get_exceeded_rule (bundleFor ranks st.user.rank) st.endpoint
        { st.user_endpoint with hits := st.user_endpoint.hits ++ [now] }
        st.user.group now = .result (some r))
    (hd : r.delay = some d)
    (hn : now ∉ st.user_endpoint.hits) :
    (∃ info, (runDependency ranks true no_hit handler now st).1
          = .limited info ∧
        info.rule = r ∧ info.limited_at = now ∧
        info.limited_for
          = ⌈(runDependency ranks true no_hit handler now
                st).2.user_endpoint.hits.getLastD 0 + d - now⌉) ∧
    (runDependency ranks true no_hit handler now
        st).2.user_endpoint.isBlocked now = false ∧
    now ∉ (runDependency ranks true no_hit handler now st).2.user_endpoint.hits ∧
    (runDependency ranks true no_hit handler now st).2.storedUserEndpoint
      = (runDependency ranks true no_hit handler now st).2.user_endpoint := by
  have hds : r.delay.isSome = true := by rw [hd]; rfl
  simp only [runDependency, prePhase, hb, Bool.false_eq_true, if_false,
    prePhaseMain, he, hds, and_true, not_true, ite_false, ite_true]
  refine ⟨⟨_, rfl, rfl, rfl, ?_⟩, ?_, ?_, rfl⟩
  · simp [limitedFor, hd, saveUserEndpoint]
  · simpa [Endpoint.isBlocked, saveUserEndpoint] using hb
  · simpa [saveUserEndpoint] using not_mem_dropLast_pySliceFrom _ _ _ hn

/-- Witness for C4: after a hit at t=0, a request at t=1/2 under the
1-second delay rule is limited for `ceil(0 + 1 - 1/2) = 1` second and the
hit at 1/2 is not retained. -/
theorem c4_delay_no_block_witness :
    (∃ info, (runDependency [[rule_d1]] true [] (.ok {}) (1/2)
          oneHitState).1 = .limited info ∧
        info.rule = rule_d1 ∧ info.limited_at = 1/2 ∧
        info.limited_for
          = ⌈(runDependency [[rule_d1]] true [] (.ok {}) (1/2)
                oneHitState).2.user_endpoint.hits.getLastD 0 + 1 - 1/2⌉) ∧
    (runDependency [[rule_d1]] true [] (.ok {}) (1/2)
        oneHitState).2.user_endpoint.isBlocked (1/2) = false ∧
    (1/2 : ℚ) ∉ (runDependency [[rule_d1]] true [] (.ok {}) (1/2)
        oneHitState).2.user_endpoint.hits ∧
    (runDependency [[rule_d1]] true [] (.ok {}) (1/2)
        oneHitState).2.storedUserEndpoint
      = (runDependency [[rule_d1]] true [] (.ok {}) (1/2)
          oneHitState).2.user_endpoint :=
  c4_delay_no_block [[rule_d1]] [] (.ok {}) (1/2) oneHitState rule_d1 1
    rfl (by decide) rfl (by decide)

/-- Claim C10: when the evaluator signals ignore-by-time (either scope), the
pre-handler phase clears the per-identity record's hits only in memory and
performs no store save: both persisted records, the in-memory global record,
the user, and the local record's `ignore_times` / `ignore_until` are all
unchanged. -/
theorem c10_ignore_time_frame (ranks : List (List LimitRule)) (nbd : Bool)
    (now : ℚ) (st : EngineState) (scope : IgnoreScope)
    (hb : st.user_endpoint.isBlocked now = false)
    (he : get_exceeded_rule (bundleFor ranks st.user.rank) st.endpoint
        { st.user_endpoint with hits := st.user_endpoint.hits ++ [now] }
        st.user.group now = .ignoreByTime scope) :
    prePhase ranks nbd now st
      = (.proceed none,
         { st with user_endpoint := { st.user_endpoint with hits := [] } }) ∧
    (prePhase ranks nbd now st).2.storedEndpoint = st.storedEndpoint ∧
    (prePhase ranks nbd now st).2.storedUserEndpoint = st.storedUserEndpoint ∧
    (prePhase ranks nbd now st).2.endpoint = st.endpoint ∧
    (prePhase ranks nbd now st).2.storedUser = st.storedUser ∧
    (prePhase ranks nbd now st).2.user_endpoint.ignore_times
      = st.user_endpoint.ignore_times ∧
    (prePhase ranks nbd now st).2.user_endpoint.ignore_until
      = st.user_endpoint.ignore_until := by
  have h1 : prePhase ranks nbd now st
      = (.proceed none,
         { st with user_endpoint := { st.user_endpoint with hits := [] } }) := by
    unfold prePhase
    rw [hb]
    simp only [Bool.false_eq_true, if_false, prePhaseMain, he]
  exact ⟨h1, by rw [h1], by rw [h1], by rw [h1], by rw [h1], by rw [h1],
    by rw [h1]⟩

/-- Witness for C10: a request at t=1 against a record with
`ignore_until = 5` proceeds with hits cleared in memory and nothing saved. -/
theorem c10_ignore_time_frame_witness :
    prePhase [[rule_h3]] true 1 ignoreTimeState
      = (.proceed none,
         { ignoreTimeState with user_endpoint :=
             { ignoreTimeState.user_endpoint with hits := [] } }) :=
  (c10_ignore_time_frame [[rule_h3]] true 1 ignoreTimeState .user rfl
      (by decide)).1

/-- Claim C6: `ignore_user(for_times=N, count_this=c)` on a normal handler
return updates only the per-identity record — `ignore_times := N`,
`ignore_until := now + seconds` when seconds is truthy, the just-appended
hit removed when `c` — and saves it; and while `ignore_times = k > 0` (and
the global record is not count-ignored) each request signals
`ByCount{identity}`: it clears the local hits, decrements `ignore_times` to
`k - 1`, saves the local record, and succeeds. -/
theorem c6_ignore_user_intent :
    (∀ (N : ℤ) (s : Option ℚ) (c : Bool) (bundle : List LimitRule) (now : ℚ)
        (st : EngineState),
      (intentPhase (ContextData.ignore_user {} s (some N) c) bundle now
          st).user_endpoint.ignore_times = some N ∧
      (intentPhase (ContextData.ignore_user {} s (some N) c) bundle now
          st).user_endpoint.ignore_until
        = (if pyTruthyQ s then some (now + s.getD 0) else none) ∧
      (intentPhase (ContextData.ignore_user {} s (some N) c) bundle now
          st).user_endpoint.hits
        = (if c = true ∧ now ∈ st.user_endpoint.hits
           then st.user_endpoint.hits.erase now else st.user_endpoint.hits) ∧
      (intentPhase (ContextData.ignore_user {} s (some N) c) bundle now
          st).storedUserEndpoint
        = (intentPhase (ContextData.ignore_user {} s (some N) c) bundle now
            st).user_endpoint ∧
      (intentPhase (ContextData.ignore_user {} s (some N) c) bundle now
          st).endpoint = st.endpoint ∧
      (intentPhase (ContextData.ignore_user {} s (some N) c) bundle now
          st).storedEndpoint = st.storedEndpoint ∧
      (intentPhase (ContextData.ignore_user {} s (some N) c) bundle now
          st).user = st.user ∧
      (intentPhase (ContextData.ignore_user {} s (some N) c) bundle now
          st).storedUser = st.storedUser) ∧
    (∀ (ranks : List (List LimitRule)) (nbd : Bool) (no_hit : List String)
        (now : ℚ) (st : EngineState) (k : ℤ),
      st.user_endpoint.isBlocked now = false →
      optPos st.endpoint.ignore_times = false →
      st.user_endpoint.ignore_times = some k → 0 < k →
      runDependency ranks nbd no_hit (.ok {}) now st
        = (.success, saveUserEndpoint { st with user_endpoint :=
            { st.user_endpoint with
                hits := [], ignore_times := some (k - 1) } })) := by
  constructor
  · intro N s c bundle now st
    by_cases hc : c = true ∧ now ∈ st.user_endpoint.hits
    · simp [intentPhase, ContextData.ignore_user, applyIgnoreIntent,
        saveUserEndpoint, hc, hc.1, hc.2]
    · simp only [intentPhase, ContextData.ignore_user, applyIgnoreIntent,
        saveUserEndpoint]
      have : (c && decide (now ∈ st.user_endpoint.hits)) = false := by
        cases hcc : c <;> simp_all
      simp [this, hc]
  · intro ranks nbd no_hit now st k hb h2 h3 hk
    have heval : get_exceeded_rule (bundleFor ranks st.user.rank) st.endpoint
        { st.user_endpoint with hits := st.user_endpoint.hits ++ [now] }
        st.user.group now = .ignoreByCount .user := by
      unfold get_exceeded_rule
      rw [h2]
      simp [optPos, h3, hk]
    simp only [runDependency, prePhase, hb, Bool.false_eq_true, if_false,
      prePhaseMain, heval]
    simp [intentPhase, saveUserEndpoint, decOpt, h3]

/-- Witness for C6: an `ignore_user(for_times=3, count_this=true)` intent on
the one-hit state, and a request at t=1 against three pending identity-scope
ignores. -/
theorem c6_ignore_user_intent_witness :
    (intentPhase (ContextData.ignore_user {} none (some 3) true) [rule_h3] 0
        oneHitState).user_endpoint.ignore_times = some 3 ∧
    runDependency [[rule_h3]] true [] (.ok {}) 1 ignoreState
      = (.success, saveUserEndpoint { ignoreState with user_endpoint :=
          { ignoreState.user_endpoint with
              hits := [], ignore_times := some 2 } }) :=
  ⟨(c6_ignore_user_intent.1 3 none true [rule_h3] 0 oneHitState).1,
   by
    have h := c6_ignore_user_intent.2 [[rule_h3]] true [] 1 ignoreState 3 rfl
      rfl rfl (by decide)
    simpa using h⟩

end RatelimitSpec
